import Mathlib

/-!
Verification of the semantic-analyzer core of `symbol_table.py`
(pascal-interpreter): the `Symbol` / `SymbolTable` data model and the
`SymbolTableBuilder` AST traversal, embedded shallowly in Lean.

The embedding follows the Python source line by line:
  * `Symbol`, `BuiltinTypeSymbol`, `VarSymbol` become one inductive with two
    constructors; a `VarSymbol`'s type field may be absent (`Option`), since
    the Python code passes the result of a `lookup` (possibly `None`) there.
  * `SymbolTable` wraps an `OrderedDict`; we model it as an association list
    preserving insertion order, where `define` overwrites in place (keeping
    the original position, as `OrderedDict` assignment does) or appends.
  * The `SymbolTableBuilder` visitor dispatch becomes a single recursive
    `visit` over a closed AST variant type.  The mutable `self.symtab`
    becomes explicit state threading; a raised `NameError` becomes the
    error branch of `Except`, carrying the message together with the table
    as it stood at raise time (the Python table survives the exception).
-/

namespace PascalST

/-- A symbol, as in the Python `Symbol` class hierarchy: either a
`BuiltinTypeSymbol(name)` or a `VarSymbol(name, type)`.  The type field of a
`VarSymbol` holds whatever `lookup` returned for the declared type name, so
it can be absent (`none`), matching the Python `None`. -/
inductive Symbol where
  | BuiltinTypeSymbol (name : String)
  | VarSymbol (name : String) (type : Option Symbol)

/-- The `name` attribute shared by both symbol classes. -/
def Symbol.name : Symbol → String
  | .BuiltinTypeSymbol n => n
  | .VarSymbol n _ => n

/-- The `SymbolTable._symbols` ordered dictionary: an insertion-ordered
association list from names to symbols. -/
abbrev SymbolTable := List (String × Symbol)

/-- Ordered-dictionary assignment `d[k] = v`: if the key is present, its
value is replaced in place (position preserved); otherwise the pair is
appended at the end. -/
def odAssign : SymbolTable → String → Symbol → SymbolTable
  | [], name, sym => [(name, sym)]
  | (k, v) :: rest, name, sym =>
      if k = name then (k, sym) :: rest else (k, v) :: odAssign rest name sym

/-- `SymbolTable.define(symbol)`: `self._symbols[symbol.name] = symbol`,
an unconditional mapping write. -/
def define (st : SymbolTable) (symbol : Symbol) : SymbolTable :=
  odAssign st symbol.name symbol

/-- `SymbolTable.lookup(name)`: `self._symbols.get(name)`, i.e. the bound
symbol if the name has an entry and `none` otherwise. -/
def lookup : SymbolTable → String → Option Symbol
  | [], _ => none
  | (k, v) :: rest, name => if k = name then some v else lookup rest name

/-- The `lookup` method viewed as a state transformer: it returns the result
of `self._symbols.get(name)` and the table, which the method body never
writes to. -/
def lookupSt (st : SymbolTable) (name : String) : Option Symbol × SymbolTable :=
  (lookup st name, st)

/-- The builtin names seeded by `SymbolTable._init_builtins`, in source
order. -/
def BUILTINS : List String := ["INTEGER", "REAL", "STRING", "BOOLEAN"]

/-- `SymbolTable.__init__`: start from an empty ordered dict and run
`_init_builtins`, which defines a `BuiltinTypeSymbol` for each builtin name
in order. -/
def newSymbolTable : SymbolTable :=
  BUILTINS.foldl (fun st b => define st (Symbol.BuiltinTypeSymbol b)) []

/-- The closed set of AST node variants the visitor dispatches on.  Fields
are exactly those the visitor reads: `Assign` stores `node.left.value` (the
target `Var` node's name, the only part of `node.left` the code touches) and
the right-hand node; `VarDecl` stores `node.var.value` and `node.type.value`;
the Python `Type` class is rendered `TypeNode` (`Type` is reserved in Lean)
and `String` is rendered `StringNode`. -/
inductive Node where
  | Program (block : Node)
  | Block (declarations : List Node) (compound_statement : Node)
  | ProcedureDeclaration
  | Compound (children : List Node)
  | Condition (condition : Node) (statement : Node) (otherwise : Node)
  | ForLoop (identifier : Node) (boundary : Node) (statement : Node)
  | Writeln
  | Assign (left : String) (right : Node)
  | VarDecl (var : String) (type : String)
  | TypeNode (value : String)
  | Var (value : String)
  | RelOp (left : Node) (right : Node)
  | BinOp (left : Node) (right : Node)
  | UnaryOp (expr : Node)
  | NoOp
  | Num
  | StringNode
  | Boolean

/-- Python `repr` of an identifier string, as it appears in the `NameError`
messages (`repr(var_name)`). -/
def pyRepr (s : String) : String := "\x27" ++ s ++ "\x27"

/-- The only error channel of the pass: `NameError(message)`. -/
inductive VErr where
  | NameError (msg : String)
deriving DecidableEq, Repr

/-- Outcome of a visit: the updated table on normal return, or the raised
error paired with the table as it stood when the exception was raised. -/
abbrev VRes := Except (VErr × SymbolTable) SymbolTable

/-- Exception propagation: continue with the updated table on normal
return, re-raise otherwise (the implicit control flow of a raised
`NameError` crossing a `self.visit(...)` call). -/
def andThen (r : VRes) (f : SymbolTable → VRes) : VRes :=
  match r with
  | .error e => .error e
  | .ok st => f st

mutual
/-- `SymbolTableBuilder.visit`, dispatching on the node variant exactly as
the `visit_*` methods do, with `self.symtab` threaded explicitly. -/
def visit (st : SymbolTable) : Node → VRes
  | .Program block => visit st block
  | .Block declarations compound_statement =>
      andThen (visitList st declarations) (fun st => visit st compound_statement)
  | .ProcedureDeclaration => .ok st
  | .Compound children => visitList st children
  | .Condition condition statement otherwise =>
      andThen (visit st condition) (fun st =>
        andThen (visit st statement) (fun st => visit st otherwise))
  | .ForLoop identifier boundary statement =>
      andThen (visit st identifier) (fun st =>
        andThen (visit st boundary) (fun st => visit st statement))
  | .Writeln => .ok st
  | .Assign left right =>
      match lookup st left with
      | none => .error (.NameError (pyRepr left), st)
      | some _ => visit st right
  | .VarDecl var type =>
      let type_symbol := lookup st type
      let var_symbol := Symbol.VarSymbol var type_symbol
      match lookup st var with
      | none => .error (.NameError (pyRepr var ++ " declared more than once!"), st)
      | some _ => .ok (define st var_symbol)
  | .TypeNode _ => .ok st
  | .Var value =>
      match lookup st value with
      | none => .error (.NameError (pyRepr value), st)
      | some _ => .ok st
  | .RelOp left right =>
      andThen (visit st left) (fun st => visit st right)
  | .BinOp left right =>
      andThen (visit st left) (fun st => visit st right)
  | .UnaryOp expr => visit st expr
  | .NoOp => .ok st
  | .Num => .ok st
  | .StringNode => .ok st
  | .Boolean => .ok st

/-- Sequential visiting of a list of child nodes (the `for` loops of
`visit_Block` and `visit_Compound`), aborting on the first error. -/
def visitList (st : SymbolTable) : List Node → VRes
  | [] => .ok st
  | n :: rest => andThen (visit st n) (fun st => visitList st rest)
end

/-- `SymbolTableBuilder.build(tree)`: the builder's `__init__` constructs a
fresh `SymbolTable` and `build` visits the tree. -/
def build (tree : Node) : VRes := visit newSymbolTable tree

mutual
/-- Size of an AST node: one plus the sizes of the children the visitor
recurses into.  Used as a bound on the recursion depth of the traversal. -/
def nsize : Node → Nat
  | .Program block => nsize block + 1
  | .Block declarations compound_statement =>
      nsizeList declarations + nsize compound_statement + 1
  | .ProcedureDeclaration => 1
  | .Compound children => nsizeList children + 1
  | .Condition condition statement otherwise =>
      nsize condition + nsize statement + nsize otherwise + 1
  | .ForLoop identifier boundary statement =>
      nsize identifier + nsize boundary + nsize statement + 1
  | .Writeln => 1
  | .Assign _ right => nsize right + 1
  | .VarDecl _ _ => 1
  | .TypeNode _ => 1
  | .Var _ => 1
  | .RelOp left right => nsize left + nsize right + 1
  | .BinOp left right => nsize left + nsize right + 1
  | .UnaryOp expr => nsize expr + 1
  | .NoOp => 1
  | .Num => 1
  | .StringNode => 1
  | .Boolean => 1

/-- Size of a list of child nodes. -/
def nsizeList : List Node → Nat
  | [] => 1
  | n :: rest => nsize n + nsizeList rest + 1
end

/-- Continuation of a fuel-metered partial result. -/
def andThenF (r : Option VRes) (f : SymbolTable → Option VRes) : Option VRes :=
  match r with
  | none => none
  | some (.error e) => some (.error e)
  | some (.ok st) => f st

mutual
/-- A step-indexed rendering of the traversal: each visit call consumes one
unit of fuel, and `none` means the fuel ran out before the walk finished.
Used to state that the recursive walk terminates on every finite tree. -/
def visitFuel : Nat → SymbolTable → Node → Option VRes
  | 0, _, _ => none
  | fuel + 1, st, node =>
    match node with
    | .Program block => visitFuel fuel st block
    | .Block declarations compound_statement =>
        andThenF (visitListFuel fuel st declarations)
          (fun st => visitFuel fuel st compound_statement)
    | .ProcedureDeclaration => some (.ok st)
    | .Compound children => visitListFuel fuel st children
    | .Condition condition statement otherwise =>
        andThenF (visitFuel fuel st condition) (fun st =>
          andThenF (visitFuel fuel st statement) (fun st =>
            visitFuel fuel st otherwise))
    | .ForLoop identifier boundary statement =>
        andThenF (visitFuel fuel st identifier) (fun st =>
          andThenF (visitFuel fuel st boundary) (fun st =>
            visitFuel fuel st statement))
    | .Writeln => some (.ok st)
    | .Assign left right =>
        match lookup st left with
        | none => some (.error (.NameError (pyRepr left), st))
        | some _ => visitFuel fuel st right
    | .VarDecl var type =>
        match lookup st var with
        | none => some (.error (.NameError (pyRepr var ++ " declared more than once!"), st))
        | some _ => some (.ok (define st (Symbol.VarSymbol var (lookup st type))))
    | .TypeNode _ => some (.ok st)
    | .Var value =>
        match lookup st value with
        | none => some (.error (.NameError (pyRepr value), st))
        | some _ => some (.ok st)
    | .RelOp left right =>
        andThenF (visitFuel fuel st left) (fun st => visitFuel fuel st right)
    | .BinOp left right =>
        andThenF (visitFuel fuel st left) (fun st => visitFuel fuel st right)
    | .UnaryOp expr => visitFuel fuel st expr
    | .NoOp => some (.ok st)
    | .Num => some (.ok st)
    | .StringNode => some (.ok st)
    | .Boolean => some (.ok st)

/-- Fuel-metered counterpart of `visitList`. -/
def visitListFuel : Nat → SymbolTable → List Node → Option VRes
  | 0, _, _ => none
  | _ + 1, st, [] => some (.ok st)
  | fuel + 1, st, n :: rest =>
      andThenF (visitFuel fuel st n) (fun st => visitListFuel fuel st rest)
end

/-! Helper lemmas about the table operations. -/

theorem lookup_eq_none_iff (st : SymbolTable) (name : String) :
    lookup st name = none ↔ ∀ p ∈ st, p.1 ≠ name := by
  induction st with
  | nil => simp [lookup]
  | cons hd tl ih =>
    obtain ⟨k, v⟩ := hd
    by_cases hk : k = name
    · subst hk
      simp [lookup]
    · simp [lookup, hk, ih]

theorem lookup_some_mem (st : SymbolTable) (name : String) (s : Symbol)
    (h : lookup st name = some s) : (name, s) ∈ st := by
  induction st with
  | nil => simp [lookup] at h
  | cons hd tl ih =>
    obtain ⟨k, v⟩ := hd
    by_cases hk : k = name
    · subst hk
      simp [lookup] at h
      simp [h]
    · simp [lookup, hk] at h
      simp [ih h]

theorem lookup_odAssign_self (st : SymbolTable) (name : String) (s : Symbol) :
    lookup (odAssign st name s) name = some s := by
  induction st with
  | nil => simp [odAssign, lookup]
  | cons hd tl ih =>
    obtain ⟨k, v⟩ := hd
    by_cases hk : k = name
    · subst hk
      simp [odAssign, lookup]
    · simp [odAssign, lookup, hk, ih]

/-! Theorems settling the specification claims. -/

/-- C5: a freshly constructed symbol table contains exactly the four
builtin-type names INTEGER, REAL, STRING, BOOLEAN in that fixed insertion
order, each bound to a builtin-type symbol of that name, and looking up each
of the four names succeeds. -/
theorem builtins_seeded :
    newSymbolTable =
      [("INTEGER", Symbol.BuiltinTypeSymbol "INTEGER"),
       ("REAL", Symbol.BuiltinTypeSymbol "REAL"),
       ("STRING", Symbol.BuiltinTypeSymbol "STRING"),
       ("BOOLEAN", Symbol.BuiltinTypeSymbol "BOOLEAN")] ∧
    lookup newSymbolTable "INTEGER" = some (Symbol.BuiltinTypeSymbol "INTEGER") ∧
    lookup newSymbolTable "REAL" = some (Symbol.BuiltinTypeSymbol "REAL") ∧
    lookup newSymbolTable "STRING" = some (Symbol.BuiltinTypeSymbol "STRING") ∧
    lookup newSymbolTable "BOOLEAN" = some (Symbol.BuiltinTypeSymbol "BOOLEAN") :=
  ⟨rfl, rfl, rfl, rfl, rfl⟩

/-- C6: for every table state and name, `lookup` returns the symbol bound to
the name when one exists and an explicit not-found result (`none`) otherwise,
and it leaves the table untouched (the method reads `_symbols.get` and
performs no write), so it cannot raise and has no side effects. -/
theorem lookup_total_pure (st : SymbolTable) (name : String) :
    lookupSt st name = (lookup st name, st) ∧
    (lookup st name = none ↔ ∀ p ∈ st, p.1 ≠ name) ∧
    (∀ s, lookup st name = some s → (name, s) ∈ st) :=
  ⟨rfl, lookup_eq_none_iff st name, fun s h => lookup_some_mem st name s h⟩

/-- Witness for C6 at the fresh table and the name REAL. -/
theorem lookup_total_pure_w :
    lookupSt newSymbolTable "REAL" = (lookup newSymbolTable "REAL", newSymbolTable) ∧
    (lookup newSymbolTable "REAL" = none ↔ ∀ p ∈ newSymbolTable, p.1 ≠ "REAL") ∧
    (∀ s, lookup newSymbolTable "REAL" = some s → ("REAL", s) ∈ newSymbolTable) :=
  lookup_total_pure newSymbolTable "REAL"

/-- C7: lookup is idempotent: a second `lookup` of the same name, run on the
state the first call left behind with no intervening `define`, returns the
same result (and the same state) as the first. -/
theorem lookup_idempotent (st : SymbolTable) (name : String) :
    lookupSt ((lookupSt st name).2) name = lookupSt st name := rfl

/-- C9: visiting a variable declaration is atomic on failure: whenever the
`VarDecl` visit raises, the table carried by the raised error is exactly the
table as it was before the node was visited (the raise happens before any
`define`). -/
theorem visit_VarDecl_atomic (st : SymbolTable) (var type : String)
    (e : VErr) (st2 : SymbolTable)
    (h : visit st (Node.VarDecl var type) = Except.error (e, st2)) : st2 = st := by
  revert h
  simp only [visit]
  cases lookup st var with
  | none => intro h; simp at h; exact h.2.symm ▸ rfl
  | some s => intro h; simp at h

/-- Witness for C9: a concrete failing declaration leaves the fresh table
unchanged. -/
theorem visit_VarDecl_atomic_w :
    visit newSymbolTable (Node.VarDecl "x" "INTEGER") =
      Except.error (VErr.NameError (pyRepr "x" ++ " declared more than once!"),
        newSymbolTable) ∧
    newSymbolTable = newSymbolTable :=
  ⟨rfl, visit_VarDecl_atomic newSymbolTable "x" "INTEGER"
    (VErr.NameError (pyRepr "x" ++ " declared more than once!")) newSymbolTable rfl⟩

/-- C10: a variable declaration whose name is already bound (for instance a
builtin type name) does not raise: the visit returns normally and overwrites
the existing binding with the new variable symbol, so a subsequent lookup of
the name yields the variable symbol, not the old entry. -/
theorem redeclaration_overwrites (st : SymbolTable) (var type : String) (s : Symbol)
    (h : lookup st var = some s) :
    visit st (Node.VarDecl var type) =
      Except.ok (define st (Symbol.VarSymbol var (lookup st type))) ∧
    lookup (define st (Symbol.VarSymbol var (lookup st type))) var =
      some (Symbol.VarSymbol var (lookup st type)) := by
  constructor
  · simp only [visit, h]
  · have hs := lookup_odAssign_self st var (Symbol.VarSymbol var (lookup st type))
    simpa [define, Symbol.name] using hs

/-- Witness for C10: redeclaring the builtin name INTEGER as a variable of
type REAL succeeds and replaces the builtin entry. -/
theorem redeclaration_overwrites_w :
    lookup newSymbolTable "INTEGER" = some (Symbol.BuiltinTypeSymbol "INTEGER") ∧
    (visit newSymbolTable (Node.VarDecl "INTEGER" "REAL") =
      Except.ok (define newSymbolTable
        (Symbol.VarSymbol "INTEGER" (lookup newSymbolTable "REAL"))) ∧
    lookup (define newSymbolTable
        (Symbol.VarSymbol "INTEGER" (lookup newSymbolTable "REAL"))) "INTEGER" =
      some (Symbol.VarSymbol "INTEGER" (lookup newSymbolTable "REAL"))) :=
  ⟨rfl, redeclaration_overwrites newSymbolTable "INTEGER" "REAL"
    (Symbol.BuiltinTypeSymbol "INTEGER") rfl⟩

/-- C1: evaluation of the analyzer at a well-formed program — one
declaration `x : INTEGER`, no duplicates, builtin type, empty body.  The
claim says analysis succeeds with the four builtins plus `x`; the code
instead raises `NameError` with the declared-more-than-once message at the
first (fresh) declaration, because the duplicate check in `visit_VarDecl`
is inverted (`if lookup(var_name) is None: raise`). -/
theorem fresh_declaration_raises :
    build (Node.Program (Node.Block [Node.VarDecl "x" "INTEGER"]
        (Node.Compound []))) =
      Except.error (VErr.NameError (pyRepr "x" ++ " declared more than once!"),
        newSymbolTable) := rfl

/-- C2: evaluation of the analyzer at a program declaring the same name
INTEGER twice in one block.  The claim says analysis must fail with a
duplicate-declaration error naming the identifier; because the duplicate
check is inverted, both declarations find the name already bound, raise
nothing, and overwrite, so the build completes normally. -/
theorem duplicate_declaration_accepted :
    build (Node.Program (Node.Block
        [Node.VarDecl "INTEGER" "REAL", Node.VarDecl "INTEGER" "STRING"]
        (Node.Compound []))) =
      Except.ok
        [("INTEGER", Symbol.VarSymbol "INTEGER" (some (Symbol.BuiltinTypeSymbol "STRING"))),
         ("REAL", Symbol.BuiltinTypeSymbol "REAL"),
         ("STRING", Symbol.BuiltinTypeSymbol "STRING"),
         ("BOOLEAN", Symbol.BuiltinTypeSymbol "BOOLEAN")] := rfl

/-- C3 counterexample: a declaration whose type name FOO has no entry in the
table does not fail with any unknown-type error.  With the variable name
INTEGER already bound, the visit returns normally and defines a variable
symbol whose type is missing (`none`) — exactly the "proceeding with a
missing type symbol" the claim rules out. -/
theorem unknownType_counterexample :
    lookup newSymbolTable "FOO" = none ∧
    visit newSymbolTable (Node.VarDecl "INTEGER" "FOO") =
      Except.ok (define newSymbolTable (Symbol.VarSymbol "INTEGER" none)) ∧
    (visit newSymbolTable (Node.VarDecl "INTEGER" "FOO")).isOk = true :=
  ⟨rfl, rfl, rfl⟩

/-- C3 amended: when the declared type name is absent from the table, the
analyzer never raises an unknown-type error; the type lookup just yields
`none` and the visit proceeds as usual — it defines the variable with an
absent type if the variable name is already bound, and the only possible
error is the (inverted) duplicate-declaration `NameError` on the variable
name itself, never one naming the type. -/
theorem unknownType_proceeds (st : SymbolTable) (var type : String)
    (h : lookup st type = none) :
    visit st (Node.VarDecl var type) =
      (match lookup st var with
       | none =>
          Except.error (VErr.NameError (pyRepr var ++ " declared more than once!"), st)
       | some _ => Except.ok (define st (Symbol.VarSymbol var none))) := by
  simp only [visit, h]

/-- Witness for the amended C3 at the type name FOO and variable name
INTEGER on a fresh table. -/
theorem unknownType_proceeds_w :
    lookup newSymbolTable "FOO" = none ∧
    visit newSymbolTable (Node.VarDecl "INTEGER" "FOO") =
      (match lookup newSymbolTable "INTEGER" with
       | none =>
          Except.error (VErr.NameError (pyRepr "INTEGER" ++ " declared more than once!"),
            newSymbolTable)
       | some _ => Except.ok (define newSymbolTable (Symbol.VarSymbol "INTEGER" none))) :=
  ⟨rfl, unknownType_proceeds newSymbolTable "INTEGER" "FOO" rfl⟩

/-- C4: evaluation of the analyzer at a program that declares `x : INTEGER`
and whose body assigns to the undeclared name `z`.  The claim says analysis
fails with an undeclared-name error naming `z`; the code instead aborts
already at the fresh declaration of `x`, with the inverted
declared-more-than-once message naming `x`. -/
theorem undeclared_reference_masked :
    build (Node.Program (Node.Block [Node.VarDecl "x" "INTEGER"]
        (Node.Compound [Node.Assign "z" Node.Num]))) =
      Except.error (VErr.NameError (pyRepr "x" ++ " declared more than once!"),
        newSymbolTable) := rfl

mutual
/-- With fuel at least the size of the node, the step-indexed walk finishes
and agrees with the recursive traversal. -/
theorem visitFuel_complete : ∀ (node : Node) (fuel : Nat) (st : SymbolTable),
    nsize node ≤ fuel → visitFuel fuel st node = some (visit st node)
  | .Program b, fuel + 1, st, h => by
      have hb : nsize b ≤ fuel := by
        have h1 : nsize b + 1 ≤ fuel + 1 := by simpa [nsize] using h
        omega
      simp only [visitFuel, visit, visitFuel_complete b fuel st hb]
  | .Block ds c, fuel + 1, st, h => by
      have h0 : nsizeList ds + nsize c + 1 ≤ fuel + 1 := by simpa [nsize] using h
      have h1 : nsizeList ds ≤ fuel := by omega
      have h2 : nsize c ≤ fuel := by omega
      simp only [visitFuel, visit, visitListFuel_complete ds fuel st h1]
      cases hv : visitList st ds with
      | error e => simp [andThenF, andThen]
      | ok st2 => simp [andThenF, andThen, visitFuel_complete c fuel st2 h2]
  | .ProcedureDeclaration, fuel + 1, st, h => by simp [visitFuel, visit]
  | .Compound cs, fuel + 1, st, h => by
      have h0 : nsizeList cs + 1 ≤ fuel + 1 := by simpa [nsize] using h
      have h1 : nsizeList cs ≤ fuel := by omega
      simp only [visitFuel, visit, visitListFuel_complete cs fuel st h1]
  | .Condition c s o, fuel + 1, st, h => by
      have h0 : nsize c + nsize s + nsize o + 1 ≤ fuel + 1 := by simpa [nsize] using h
      have h1 : nsize c ≤ fuel := by omega
      have h2 : nsize s ≤ fuel := by omega
      have h3 : nsize o ≤ fuel := by omega
      simp only [visitFuel, visit, visitFuel_complete c fuel st h1]
      cases hv : visit st c with
      | error e => simp [andThenF, andThen]
      | ok st2 =>
        simp only [andThenF, andThen, visitFuel_complete s fuel st2 h2]
        cases hv2 : visit st2 s with
        | error e => simp [andThenF, andThen]
        | ok st3 => simp [andThenF, andThen, visitFuel_complete o fuel st3 h3]
  | .ForLoop i b s, fuel + 1, st, h => by
      have h0 : nsize i + nsize b + nsize s + 1 ≤ fuel + 1 := by simpa [nsize] using h
      have h1 : nsize i ≤ fuel := by omega
      have h2 : nsize b ≤ fuel := by omega
      have h3 : nsize s ≤ fuel := by omega
      simp only [visitFuel, visit, visitFuel_complete i fuel st h1]
      cases hv : visit st i with
      | error e => simp [andThenF, andThen]
      | ok st2 =>
        simp only [andThenF, andThen, visitFuel_complete b fuel st2 h2]
        cases hv2 : visit st2 b with
        | error e => simp [andThenF, andThen]
        | ok st3 => simp [andThenF, andThen, visitFuel_complete s fuel st3 h3]
  | .Writeln, fuel + 1, st, h => by simp [visitFuel, visit]
  | .Assign left right, fuel + 1, st, h => by
      have h0 : nsize right + 1 ≤ fuel + 1 := by simpa [nsize] using h
      have h1 : nsize right ≤ fuel := by omega
      simp only [visitFuel, visit]
      cases hv : lookup st left with
      | none => rfl
      | some s => simpa using visitFuel_complete right fuel st h1
  | .VarDecl var type, fuel + 1, st, h => by
      simp only [visitFuel, visit]
      cases hv : lookup st var with
      | none => rfl
      | some s => rfl
  | .TypeNode v, fuel + 1, st, h => by simp [visitFuel, visit]
  | .Var v, fuel + 1, st, h => by
      simp only [visitFuel, visit]
      cases hv : lookup st v with
      | none => rfl
      | some s => rfl
  | .RelOp l r, fuel + 1, st, h => by
      have h0 : nsize l + nsize r + 1 ≤ fuel + 1 := by simpa [nsize] using h
      have h1 : nsize l ≤ fuel := by omega
      have h2 : nsize r ≤ fuel := by omega
      simp only [visitFuel, visit, visitFuel_complete l fuel st h1]
      cases hv : visit st l with
      | error e => simp [andThenF, andThen]
      | ok st2 => simp [andThenF, andThen, visitFuel_complete r fuel st2 h2]
  | .BinOp l r, fuel + 1, st, h => by
      have h0 : nsize l + nsize r + 1 ≤ fuel + 1 := by simpa [nsize] using h
      have h1 : nsize l ≤ fuel := by omega
      have h2 : nsize r ≤ fuel := by omega
      simp only [visitFuel, visit, visitFuel_complete l fuel st h1]
      cases hv : visit st l with
      | error e => simp [andThenF, andThen]
      | ok st2 => simp [andThenF, andThen, visitFuel_complete r fuel st2 h2]
  | .UnaryOp e, fuel + 1, st, h => by
      have h0 : nsize e + 1 ≤ fuel + 1 := by simpa [nsize] using h
      have h1 : nsize e ≤ fuel := by omega
      simp only [visitFuel, visit, visitFuel_complete e fuel st h1]
  | .NoOp, fuel + 1, st, h => by simp [visitFuel, visit]
  | .Num, fuel + 1, st, h => by simp [visitFuel, visit]
  | .StringNode, fuel + 1, st, h => by simp [visitFuel, visit]
  | .Boolean, fuel + 1, st, h => by simp [visitFuel, visit]
  | node, 0, st, h => by
      exfalso
      cases node <;> simp [nsize] at h

/-- With fuel at least the size of the list, the step-indexed walk of a
child list finishes and agrees with `visitList`. -/
theorem visitListFuel_complete : ∀ (ns : List Node) (fuel : Nat) (st : SymbolTable),
    nsizeList ns ≤ fuel → visitListFuel fuel st ns = some (visitList st ns)
  | [], fuel + 1, st, h => by simp [visitListFuel, visitList]
  | n :: rest, fuel + 1, st, h => by
      have h0 : nsize n + nsizeList rest + 1 ≤ fuel + 1 := by simpa [nsizeList] using h
      have h1 : nsize n ≤ fuel := by omega
      have h2 : nsizeList rest ≤ fuel := by omega
      simp only [visitListFuel, visitList, visitFuel_complete n fuel st h1]
      cases hv : visit st n with
      | error e => simp [andThenF, andThen]
      | ok st2 => simp [andThenF, andThen, visitListFuel_complete rest fuel st2 h2]
  | ns, 0, st, h => by
      exfalso
      cases ns <;> simp [nsizeList] at h
end

/-- C8: for every finite AST and any fuel bound at least the tree's size,
the fuel-metered analyzer run completes within that many steps — it returns
`some` outcome, equal to the outcome of `build` (normal completion or the
first raised error); the traversal therefore terminates on every finite
tree. -/
theorem traversal_terminates (tree : Node) (fuel : Nat) (h : nsize tree ≤ fuel) :
    visitFuel fuel newSymbolTable tree = some (build tree) :=
  visitFuel_complete tree fuel newSymbolTable h

/-- Witness for C8 at a small concrete program and fuel 9. -/
theorem traversal_terminates_w :
    nsize (Node.Program (Node.Block [] (Node.Compound []))) ≤ 9 ∧
    visitFuel 9 newSymbolTable (Node.Program (Node.Block [] (Node.Compound []))) =
      some (build (Node.Program (Node.Block [] (Node.Compound [])))) :=
  ⟨by decide, traversal_terminates (Node.Program (Node.Block [] (Node.Compound [])))
    9 (by decide)⟩

end PascalST
